import Mathlib

/-!
Verification of the ARA (Current Reality Tree) diagram editor.

This file shallowly embeds the graph-editing core of the repository:
the data model (src/types.ts), the constants (src/constants.ts), the
Graph Store operations owned by the App component (src/App.tsx), the
geometry routine and the pointer-interaction handlers of
src/components/CurrentRealityTree.tsx.

Numbers (JS doubles) are modelled as rationals; machine-level
floating-point rounding is outside the model.  The id generator
`generateId` (timestamp plus random suffix in the source) is modelled
as a counter `nextId` threaded through the store state, which captures
the intended freshness of generated ids.  `Math.random()` position
defaults in `addNode` are modelled as explicit extra parameters.
-/

namespace ARA

/-- src/types.ts: `enum NodeType { UDE, CAUSE }`. -/
inductive NodeType where
  | UDE : NodeType
  | CAUSE : NodeType
deriving DecidableEq, Repr

/-- A point on the canvas, as used by the geometry routine. -/
structure Point where
  x : ℚ
  y : ℚ
deriving DecidableEq, Repr

/-- src/types.ts: `interface Node`. -/
structure Node where
  id : String
  text : String
  x : ℚ
  y : ℚ
  type : NodeType
  width : ℚ
  height : ℚ
deriving DecidableEq, Repr

/-- src/types.ts: `interface Edge`. -/
structure Edge where
  id : String
  sourceId : String
  targetId : String
deriving DecidableEq, Repr

/-- src/types.ts: `interface PendingEdge` (transient connect-gesture state). -/
structure PendingEdge where
  sourceId : String
  sourceX : ℚ
  sourceY : ℚ
  mouseX : ℚ
  mouseY : ℚ
deriving DecidableEq, Repr

/-- src/constants.ts: `NODE_WIDTH = 200`. -/
def NODE_WIDTH : ℚ := 200

/-- src/constants.ts: `NODE_HEIGHT = 70`. -/
def NODE_HEIGHT : ℚ := 70

/-- src/constants.ts: `PORT_SIZE = 10` (diameter of connection ports). -/
def PORT_SIZE : ℚ := 10

/-- src/constants.ts: `MIN_NODE_WIDTH = 60`. -/
def MIN_NODE_WIDTH : ℚ := 60

/-- src/constants.ts: `MIN_NODE_HEIGHT = 40`. -/
def MIN_NODE_HEIGHT : ℚ := 40

/-- The Graph Store state owned by the App component (src/App.tsx):
the `nodes`, `edges` and `selectedNodeId` React states, the mutable
`defaultNodeSize` setting, plus a counter modelling `generateId`'s
fresh-id supply. -/
structure AppState where
  nodes : List Node
  edges : List Edge
  selectedNodeId : Option String
  defaultWidth : ℚ
  defaultHeight : ℚ
  nextId : Nat
deriving DecidableEq, Repr

/-- src/App.tsx `generateId`, modelled as a counter-indexed id. -/
def generateId (k : Nat) : String := "id_" ++ toString k

/-- The type-specific placeholder text used by `addNode`
(src/App.tsx line 40): 'Novo EI' for UDE, 'Nova Causa' for CAUSE. -/
def defaultText (type : NodeType) : String :=
  match type with
  | NodeType.UDE => "Novo EI"
  | NodeType.CAUSE => "Nova Causa"

/-- src/App.tsx `addNode`.  The optional `text` argument is combined
with the placeholder via JS `text || default`, whose only falsy string
is the empty string; the optional coordinates use `??` (nullish), with
the `Math.random()` fallbacks passed here explicitly as `randX`,
`randY`.  Returns the updated store and the created node. -/
def addNode (st : AppState) (type : NodeType) (text : Option String)
    (x y : Option ℚ) (randX randY : ℚ) : AppState × Node :=
  let newNode : Node :=
    { id := generateId st.nextId
      text := match text with
              | some t => if t = "" then defaultText type else t
              | none => defaultText type
      x := x.getD randX
      y := y.getD randY
      type := type
      width := st.defaultWidth
      height := st.defaultHeight }
  ({ st with nodes := st.nodes ++ [newNode], nextId := st.nextId + 1 }, newNode)

/-- src/App.tsx `updateNodeText`. -/
def updateNodeText (st : AppState) (nodeId : String) (newText : String) : AppState :=
  { st with nodes := st.nodes.map fun n =>
      if n.id = nodeId then { n with text := newText } else n }

/-- src/App.tsx `updateNodePosition`. -/
def updateNodePosition (st : AppState) (nodeId : String) (x y : ℚ) : AppState :=
  { st with nodes := st.nodes.map fun n =>
      if n.id = nodeId then { n with x := x, y := y } else n }

/-- src/App.tsx `handleUpdateNodeDimensions`: clamps both dimensions to
the configured minimums via `Math.max`. -/
def updateNodeDimensions (st : AppState) (nodeId : String) (newWidth newHeight : ℚ) : AppState :=
  { st with nodes := st.nodes.map fun n =>
      if n.id = nodeId then
        { n with width := max MIN_NODE_WIDTH newWidth,
                 height := max MIN_NODE_HEIGHT newHeight }
      else n }

/-- src/App.tsx `handleSetDefaultNodeSize`. -/
def setDefaultNodeSize (st : AppState) (newWidth newHeight : ℚ) : AppState :=
  { st with defaultWidth := max MIN_NODE_WIDTH newWidth,
            defaultHeight := max MIN_NODE_HEIGHT newHeight }

/-- src/App.tsx `deleteNode`: filters the node out, filters out every
edge touching it, and clears the selection when it was selected. -/
def deleteNode (st : AppState) (nodeId : String) : AppState :=
  { st with
    nodes := st.nodes.filter fun n => n.id != nodeId
    edges := st.edges.filter fun e => e.sourceId != nodeId && e.targetId != nodeId
    selectedNodeId := if st.selectedNodeId = some nodeId then none else st.selectedNodeId }

/-- src/App.tsx line 91: `edges.some(e => e.sourceId === sourceId && e.targetId === targetId)`. -/
def hasEdgePair (edges : List Edge) (sourceId targetId : String) : Bool :=
  edges.any fun e => e.sourceId == sourceId && e.targetId == targetId

/-- src/App.tsx `addEdge`: silent no-op when the endpoints coincide or
the ordered pair already exists; otherwise appends one fresh edge. -/
def addEdge (st : AppState) (sourceId targetId : String) : AppState :=
  if sourceId = targetId ∨ hasEdgePair st.edges sourceId targetId then st
  else
    { st with
      edges := st.edges ++ [{ id := generateId st.nextId, sourceId := sourceId, targetId := targetId }]
      nextId := st.nextId + 1 }

/-- src/App.tsx `deleteEdge`. -/
def deleteEdge (st : AppState) (edgeId : String) : AppState :=
  { st with edges := st.edges.filter fun e => e.id != edgeId }

/-- JS `Math.sign`, over the rationals. -/
def qsign (q : ℚ) : ℚ := if 0 < q then 1 else if q < 0 then -1 else 0

/-- JS `Math.max(lo, Math.min(v, hi))`, the clamping applied at the end of
`calculateIntersectionPointWithNodeBoundary` (src/components/CurrentRealityTree.tsx
lines 61-62). -/
def clamp (lo v hi : ℚ) : ℚ := max lo (min v hi)

/-- The fallback of src/components/CurrentRealityTree.tsx lines 52-56,
taken when the computed scale `minT` is `Infinity` or `0`. -/
def boundaryFallback (node : Node) (dx dy : ℚ) : Point :=
  let nodeCenterX := node.x + node.width / 2
  let nodeCenterY := node.y + node.height / 2
  if dx = 0 then { x := nodeCenterX, y := nodeCenterY + qsign dy * (node.height / 2) }
  else if dy = 0 then { x := nodeCenterX + qsign dx * (node.width / 2), y := nodeCenterY }
  else { x := nodeCenterX, y := node.y + node.height }

/-- src/components/CurrentRealityTree.tsx
`calculateIntersectionPointWithNodeBoundary` (lines 28-65).  The JS
variable `minT`, initialised to `Infinity` and lowered by each axis
with a nonzero delta, is modelled as an `Option ℚ` with `none` playing
the role of `Infinity`. -/
def intersectBoundary (node : Node) (targetPoint : Point) : Point :=
  let nodeCenterX := node.x + node.width / 2
  let nodeCenterY := node.y + node.height / 2
  let dx := targetPoint.x - nodeCenterX
  let dy := targetPoint.y - nodeCenterY
  if dx = 0 ∧ dy = 0 then
    { x := nodeCenterX, y := node.y + node.height }
  else
    let halfWidth := node.width / 2
    let halfHeight := node.height / 2
    let minT0 : Option ℚ := if dx ≠ 0 then some |halfWidth / dx| else none
    let minT : Option ℚ :=
      if dy ≠ 0 then
        match minT0 with
        | none => some |halfHeight / dy|
        | some t => some (min t |halfHeight / dy|)
      else minT0
    match minT with
    | none => boundaryFallback node dx dy
    | some t =>
      if t = 0 then boundaryFallback node dx dy
      else
        { x := clamp node.x (nodeCenterX + dx * t) (node.x + node.width)
          y := clamp node.y (nodeCenterY + dy * t) (node.y + node.height) }

/-- The transient UI state of the Interaction State Machine:
`draggingNode`, `dragOffset`, `pendingEdge`, `selectedEdgeId` and
`potentialTargetNodeId` of src/components/CurrentRealityTree.tsx, plus
the per-node `isResizing` flags of src/components/NodeComponent.tsx
(at most one node can be under the single pointer, represented as the
id of the node being resized, if any). -/
structure UIState where
  draggingNode : Option String
  dragOffsetX : ℚ
  dragOffsetY : ℚ
  pendingEdge : Option PendingEdge
  selectedEdgeId : Option String
  potentialTargetNodeId : Option String
  resizingNode : Option String
deriving DecidableEq, Repr

/-- The two port kinds passed to the port handlers. -/
inductive PortType where
  | source : PortType
  | target : PortType
deriving DecidableEq, Repr

/-- The squared distance computed in `handleMouseMoveInPane`
(src/components/CurrentRealityTree.tsx lines 203-206): from the live
cursor to the point `(node.x + node.width/2, node.y + PORT_SIZE/2)`. -/
def distSqToHoverAnchor (n : Node) (mouseX mouseY : ℚ) : ℚ :=
  (mouseX - (n.x + n.width / 2)) ^ 2 + (mouseY - (n.y + PORT_SIZE / 2)) ^ 2

/-- The hover-target loop of `handleMouseMoveInPane` (lines 199-216):
skip the pending source, mark the first node whose port distance is
below `PORT_SIZE * 2.5` and break; clear when none is found.  The JS
comparison `Math.sqrt(d) < PORT_SIZE * 2.5` is rendered as
`d < (PORT_SIZE * (5/2))^2`, equivalent since both sides of the
original comparison are nonnegative. -/
def findHotTarget (nodes : List Node) (sourceId : String) (mouseX mouseY : ℚ) :
    Option String :=
  match nodes with
  | [] => none
  | n :: rest =>
    if n.id = sourceId then findHotTarget rest sourceId mouseX mouseY
    else if distSqToHoverAnchor n mouseX mouseY < (PORT_SIZE * (5 / 2)) ^ 2 then some n.id
    else findHotTarget rest sourceId mouseX mouseY

/-- src/components/CurrentRealityTree.tsx `handleMouseMoveInPane`
(lines 190-219): while a pending edge is active, update its live cursor
point and recompute the hot target; otherwise do nothing. -/
def handleMouseMoveInPane (app : AppState) (ui : UIState) (mouseX mouseY : ℚ) : UIState :=
  match ui.pendingEdge with
  | none => ui
  | some pe =>
    { ui with
      pendingEdge := some { pe with mouseX := mouseX, mouseY := mouseY }
      potentialTargetNodeId := findHotTarget app.nodes pe.sourceId mouseX mouseY }

/-- src/components/CurrentRealityTree.tsx `handlePortMouseDown`
(lines 149-176).  On a source port: start a pending edge anchored at
the canvas-relative pointer position and select the node.  On a target
port: if a pending edge from a different node is active, commit the
edge via `onAddEdge` — the branch performs no hot-target check. -/
def handlePortMouseDown (app : AppState) (ui : UIState) (mouseX mouseY : ℚ)
    (nodeId : String) (portType : PortType) : AppState × UIState :=
  match portType with
  | PortType.source =>
    ({ app with selectedNodeId := some nodeId },
     { ui with
       pendingEdge := some
         { sourceId := nodeId, sourceX := mouseX, sourceY := mouseY,
           mouseX := mouseX, mouseY := mouseY }
       selectedEdgeId := none
       potentialTargetNodeId := none })
  | PortType.target =>
    match ui.pendingEdge with
    | some pe =>
      if pe.sourceId ≠ nodeId then
        (addEdge app pe.sourceId nodeId,
         { ui with pendingEdge := none, potentialTargetNodeId := none })
      else (app, ui)
    | none => (app, ui)

/-- src/components/CurrentRealityTree.tsx `handlePortMouseUp`
(lines 178-188): on a target port with a pending edge from a different
node, commit only when that node is the current hot target, and clear
the pending edge and hot target either way. -/
def handlePortMouseUp (app : AppState) (ui : UIState)
    (nodeId : String) (portType : PortType) : AppState × UIState :=
  match portType, ui.pendingEdge with
  | PortType.target, some pe =>
    if pe.sourceId ≠ nodeId then
      ((if ui.potentialTargetNodeId = some nodeId then addEdge app pe.sourceId nodeId else app),
       { ui with pendingEdge := none, potentialTargetNodeId := none })
    else (app, ui)
  | _, _ => (app, ui)

/-- The document-level Escape handler of src/components/CurrentRealityTree.tsx
(lines 269-282): when a pending edge exists, discard it and clear the
hot target.  It touches no other state and calls no Graph Store
operation; in particular neither `draggingNode` nor the resize flags of
NodeComponent are affected by Escape anywhere in the source. -/
def handleEscapeKeyDown (app : AppState) (ui : UIState) : AppState × UIState :=
  match ui.pendingEdge with
  | some _ => (app, { ui with pendingEdge := none, potentialTargetNodeId := none })
  | none => (app, ui)

/-- The endpoint-existence invariant over explicit node and edge
lists: every edge's `sourceId` and `targetId` name a node present in
the node list. -/
def edgesValid (nodes : List Node) (edges : List Edge) : Prop :=
  ∀ e ∈ edges,
    (∃ n ∈ nodes, n.id = e.sourceId) ∧ (∃ n ∈ nodes, n.id = e.targetId)

/-- The endpoint-existence invariant of §3 of the design, on a store
state. -/
def edgesWellFormed (st : AppState) : Prop :=
  edgesValid st.nodes st.edges

instance (nodes : List Node) (edges : List Edge) : Decidable (edgesValid nodes edges) := by
  unfold edgesValid
  infer_instance

instance (st : AppState) : Decidable (edgesWellFormed st) := by
  unfold edgesWellFormed
  infer_instance

/-- Modelled from the spec: §4.3 measures hover proximity as the
"distance from the live cursor to that node's top-center port".  The
target port circle is centered at the node's top-center
`(x + width/2, y)` (src/components/NodeComponent.tsx positions it at
`targetPortPos = (width/2, 0)`).  This is the spec-side counterpart of
`distSqToHoverAnchor`, for comparison with the source. -/
def distSqToPortCenter (n : Node) (mouseX mouseY : ℚ) : ℚ :=
  (mouseX - (n.x + n.width / 2)) ^ 2 + (mouseY - n.y) ^ 2

/-- Modelled from the spec: the hover-target rule of §4.3 as written —
first node other than the source whose top-center port lies within
2.5 port diameters of the cursor.  Spec-side counterpart of
`findHotTarget`. -/
def findHotTargetSpec (nodes : List Node) (sourceId : String) (mouseX mouseY : ℚ) :
    Option String :=
  match nodes with
  | [] => none
  | n :: rest =>
    if n.id = sourceId then findHotTargetSpec rest sourceId mouseX mouseY
    else if distSqToPortCenter n mouseX mouseY < (PORT_SIZE * (5 / 2)) ^ 2 then some n.id
    else findHotTargetSpec rest sourceId mouseX mouseY

/-! Concrete sample states used by counterexamples and witnesses. -/

/-- A sample UDE node. -/
def nodeA : Node :=
  { id := "A", text := "ei", x := 0, y := 0, type := NodeType.UDE,
    width := 200, height := 70 }

/-- A sample CAUSE node. -/
def nodeB : Node :=
  { id := "B", text := "causa", x := 300, y := 300, type := NodeType.CAUSE,
    width := 200, height := 70 }

/-- A sample pending edge dragged out of `nodeA`'s source port. -/
def c1Pe : PendingEdge :=
  { sourceId := "A", sourceX := 100, sourceY := 70, mouseX := 305, mouseY := 300 }

/-- A store holding `nodeA` and `nodeB` and no edges. -/
def c1App : AppState :=
  { nodes := [nodeA, nodeB], edges := [], selectedNodeId := some "A",
    defaultWidth := 200, defaultHeight := 70, nextId := 2 }

/-- UI state mid-connect from `nodeA`, with no hot target flagged. -/
def c1Ui : UIState :=
  { draggingNode := none, dragOffsetX := 0, dragOffsetY := 0,
    pendingEdge := some c1Pe, selectedEdgeId := none,
    potentialTargetNodeId := none, resizingNode := none }

/-- A store with no nodes at all. -/
def c2App : AppState :=
  { nodes := [], edges := [], selectedNodeId := none,
    defaultWidth := 200, defaultHeight := 70, nextId := 0 }

/-- An edge from `nodeA` to `nodeB`. -/
def edgeAB : Edge := { id := "e1", sourceId := "A", targetId := "B" }

/-- A store holding `nodeA`, `nodeB` and the edge `edgeAB`, with
`nodeA` selected. -/
def c4App : AppState :=
  { nodes := [nodeA, nodeB], edges := [edgeAB], selectedNodeId := some "A",
    defaultWidth := 200, defaultHeight := 70, nextId := 3 }

/-- UI state with a node drag in flight and no pending edge. -/
def c5Ui : UIState :=
  { draggingNode := some "A", dragOffsetX := 5, dragOffsetY := 2,
    pendingEdge := none, selectedEdgeId := none,
    potentialTargetNodeId := none, resizingNode := none }

/-- A far-away connect source for the hover-detection example. -/
def c6NodeA : Node :=
  { id := "A", text := "ei", x := 500, y := 500, type := NodeType.UDE,
    width := 200, height := 70 }

/-- The hover-detection example target: top edge at `y = 0`, top-center
port at `(50, 0)`, source-code hover anchor at `(50, 5)`. -/
def c6NodeB : Node :=
  { id := "B", text := "causa", x := 0, y := 0, type := NodeType.CAUSE,
    width := 100, height := 50 }

/-- Store for the hover-detection example. -/
def c6App : AppState :=
  { nodes := [c6NodeA, c6NodeB], edges := [], selectedNodeId := some "A",
    defaultWidth := 200, defaultHeight := 70, nextId := 2 }

/-- Pending edge out of `c6NodeA`. -/
def c6Pe : PendingEdge :=
  { sourceId := "A", sourceX := 600, sourceY := 570, mouseX := 600, mouseY := 570 }

/-- UI state mid-connect from `c6NodeA`. -/
def c6Ui : UIState :=
  { draggingNode := none, dragOffsetX := 0, dragOffsetY := 0,
    pendingEdge := some c6Pe, selectedEdgeId := none,
    potentialTargetNodeId := none, resizingNode := none }

/-- A small node, for the dimension-update witness. -/
def c7NodeIn : Node :=
  { id := "a", text := "t", x := 1, y := 2, type := NodeType.CAUSE,
    width := 80, height := 50 }

/-- The node expected after resizing `c7NodeIn` to requested 20×100:
width clamped up to the minimum 60, height 100. -/
def c7NodeOut : Node :=
  { id := "a", text := "t", x := 1, y := 2, type := NodeType.CAUSE,
    width := 60, height := 100 }

/-- A store with the single small node, for the dimension-update
witness. -/
def c7App : AppState :=
  { nodes := [c7NodeIn],
    edges := [], selectedNodeId := none,
    defaultWidth := 200, defaultHeight := 70, nextId := 1 }

/-! Theorems. -/

/-- C3: `addEdge(a, b)` is a silent no-op when `a = b` or the ordered
pair already exists (the state, edge list included, is unchanged and no
error is possible — the operation is total); otherwise it appends
exactly one edge carrying the store's next generated id.  Consequently
`addEdge` is idempotent — a second identical call changes nothing, and
starting from a state without an `(a, b)` edge the two calls leave
exactly one such edge — and `addEdge(a, a)` never creates an edge. -/
theorem addEdge_algebra (st : AppState) (a b : String) :
    addEdge st a a = st ∧
    addEdge (addEdge st a b) a b = addEdge st a b ∧
    (hasEdgePair st.edges a b = true → addEdge st a b = st) ∧
    (a ≠ b → hasEdgePair st.edges a b = false →
      (addEdge st a b).edges =
        st.edges ++ [{ id := generateId st.nextId, sourceId := a, targetId := b }] ∧
      ((addEdge st a b).edges.filter
          fun e => e.sourceId == a && e.targetId == b).length = 1) := by
  have hdup : ∀ st' : AppState, hasEdgePair st'.edges a b = true → addEdge st' a b = st' := by
    intro st' h
    simp [addEdge, h]
  refine ⟨by simp [addEdge], ?_, hdup st, ?_⟩
  · by_cases hc : a = b ∨ hasEdgePair st.edges a b
    · have h1 : addEdge st a b = st := by
        unfold addEdge
        exact if_pos hc
      rw [h1]
      exact h1
    · have h1 : (addEdge st a b).edges =
          st.edges ++ [{ id := generateId st.nextId, sourceId := a, targetId := b }] := by
        unfold addEdge
        rw [if_neg hc]
      exact hdup _ (by simp [hasEdgePair, h1, List.any_append])
  · intro hne hfalse
    have hc : ¬(a = b ∨ hasEdgePair st.edges a b) := by
      simp [hne, hfalse]
    have h1 : (addEdge st a b).edges =
        st.edges ++ [{ id := generateId st.nextId, sourceId := a, targetId := b }] := by
      unfold addEdge
      rw [if_neg hc]
    refine ⟨h1, ?_⟩
    have hnil : (st.edges.filter fun e => e.sourceId == a && e.targetId == b) = [] := by
      rw [List.filter_eq_nil]
      intro e he
      have := (List.any_eq_false.mp hfalse) e he
      simpa using this
    rw [h1, List.filter_append, hnil]
    simp

/-- Witness for `addEdge_algebra` at the concrete store `c1App`. -/
theorem addEdge_algebra_witness :
    (addEdge c1App "A" "B").edges =
      c1App.edges ++ [{ id := generateId c1App.nextId, sourceId := "A", targetId := "B" }] ∧
    ((addEdge c1App "A" "B").edges.filter
        fun e => e.sourceId == "A" && e.targetId == "B").length = 1 :=
  (addEdge_algebra c1App "A" "B").2.2.2 (by decide) (by decide)

/-- C4: `deleteNode(id)` removes exactly the node with that id, removes
exactly the edges whose `sourceId` or `targetId` equals the id (so no
remaining edge references it, and every other edge survives), and
clears the node selection precisely when the deleted node was the
selected one. -/
theorem deleteNode_spec (st : AppState) (nodeId : String) :
    (∀ n ∈ (deleteNode st nodeId).nodes, n.id ≠ nodeId ∧ n ∈ st.nodes) ∧
    (∀ n ∈ st.nodes, n.id ≠ nodeId → n ∈ (deleteNode st nodeId).nodes) ∧
    (∀ e ∈ (deleteNode st nodeId).edges,
      e.sourceId ≠ nodeId ∧ e.targetId ≠ nodeId ∧ e ∈ st.edges) ∧
    (∀ e ∈ st.edges, e.sourceId ≠ nodeId → e.targetId ≠ nodeId →
      e ∈ (deleteNode st nodeId).edges) ∧
    (deleteNode st nodeId).selectedNodeId =
      (if st.selectedNodeId = some nodeId then none else st.selectedNodeId) := by
  refine ⟨?_, ?_, ?_, ?_, rfl⟩
  · intro n hn
    simp only [deleteNode, List.mem_filter, bne_iff_ne, ne_eq] at hn
    exact ⟨hn.2, hn.1⟩
  · intro n hn hne
    simp only [deleteNode, List.mem_filter, bne_iff_ne, ne_eq]
    exact ⟨hn, hne⟩
  · intro e he
    simp only [deleteNode, List.mem_filter, Bool.and_eq_true, bne_iff_ne, ne_eq] at he
    exact ⟨he.2.1, he.2.2, he.1⟩
  · intro e he h1 h2
    simp only [deleteNode, List.mem_filter, Bool.and_eq_true, bne_iff_ne, ne_eq]
    exact ⟨he, h1, h2⟩

/-- Witness for `deleteNode_spec`: deleting `nodeA` from `c4App` keeps
`nodeB`, and clears the selection since `nodeA` was selected. -/
theorem deleteNode_spec_witness :
    nodeB ∈ (deleteNode c4App "A").nodes ∧
    (deleteNode c4App "A").selectedNodeId = none :=
  ⟨(deleteNode_spec c4App "A").2.1 nodeB (by decide) (by decide),
   ((deleteNode_spec c4App "A").2.2.2.2).trans (by decide)⟩

/-- C7: `updateNodeDimensions(id, w, h)` stores width
`max(MIN_NODE_WIDTH, w)` and height `max(MIN_NODE_HEIGHT, h)` on the
node with the given id (hence both at least the configured minimums,
60 and 40), leaves every node with a different id untouched at its
position in the list, and changes neither edges nor selection. -/
theorem updateNodeDimensions_spec (st : AppState) (nodeId : String) (w0 h0 : ℚ) :
    (updateNodeDimensions st nodeId w0 h0).edges = st.edges ∧
    (updateNodeDimensions st nodeId w0 h0).selectedNodeId = st.selectedNodeId ∧
    (updateNodeDimensions st nodeId w0 h0).nodes.length = st.nodes.length ∧
    MIN_NODE_WIDTH = 60 ∧ MIN_NODE_HEIGHT = 40 ∧
    ∀ i : ℕ, ∀ n ∈ st.nodes.get? i,
      ∀ n' ∈ (updateNodeDimensions st nodeId w0 h0).nodes.get? i,
        (n.id = nodeId →
          n'.width = max MIN_NODE_WIDTH w0 ∧ n'.height = max MIN_NODE_HEIGHT h0 ∧
          MIN_NODE_WIDTH ≤ n'.width ∧ MIN_NODE_HEIGHT ≤ n'.height ∧
          n'.id = n.id ∧ n'.text = n.text ∧ n'.x = n.x ∧ n'.y = n.y) ∧
        (n.id ≠ nodeId → n' = n) := by
  refine ⟨rfl, rfl, by simp [updateNodeDimensions], rfl, rfl, ?_⟩
  intro i n hn n' hn'
  simp only [updateNodeDimensions, List.get?_map, Option.mem_def] at hn hn'
  rw [hn] at hn'
  have hfn : (if n.id = nodeId then
      { n with width := max MIN_NODE_WIDTH w0, height := max MIN_NODE_HEIGHT h0 }
    else n) = n' := by
    simpa using hn'
  by_cases h : n.id = nodeId
  · rw [if_pos h] at hfn
    subst hfn
    exact ⟨fun _ => ⟨rfl, rfl, le_max_left _ _, le_max_left _ _, rfl, rfl, rfl, rfl⟩,
           fun hne => absurd h hne⟩
  · rw [if_neg h] at hfn
    subst hfn
    exact ⟨fun habs => absurd habs h, fun _ => rfl⟩

/-- Witness for `updateNodeDimensions_spec`: resizing the node of
`c7App` to requested 20×100 clamps the width up to the minimum 60 and
keeps the height 100. -/
theorem updateNodeDimensions_spec_witness :
    MIN_NODE_WIDTH ≤ c7NodeOut.width ∧
    c7NodeOut.width = max MIN_NODE_WIDTH 20 ∧
    c7NodeOut.height = max MIN_NODE_HEIGHT 100 := by
  have h := ((updateNodeDimensions_spec c7App "a" 20 100).2.2.2.2.2 0
    c7NodeIn (by decide) c7NodeOut (by decide)).1 rfl
  exact ⟨h.2.2.1, h.1, h.2.1⟩

/-- C9: when the target point coincides with the node's own center
(both deltas zero), `intersectBoundary` returns the node's
bottom-center point; being a pure function of its arguments, repeated
calls with the same inputs agree. -/
theorem intersectBoundary_center (n : Node) :
    intersectBoundary n { x := n.x + n.width / 2, y := n.y + n.height / 2 } =
      { x := n.x + n.width / 2, y := n.y + n.height } := by
  simp [intersectBoundary]

/-- C10: `addNode` called with an explicitly supplied empty-string text
behaves exactly as if the text argument had been omitted (the JS `||`
default applies on any falsy string): the stored text is the
type-specific placeholder, 'Novo EI' for UDE and 'Nova Causa' for
CAUSE. -/
theorem addNode_emptyText (st : AppState) (type : NodeType)
    (x y : Option ℚ) (rx ry : ℚ) :
    addNode st type (some "") x y rx ry = addNode st type none x y rx ry ∧
    (addNode st type (some "") x y rx ry).2.text = defaultText type ∧
    defaultText NodeType.UDE = "Novo EI" ∧
    defaultText NodeType.CAUSE = "Nova Causa" := by
  refine ⟨?_, ?_, rfl, rfl⟩ <;> simp [addNode]

/-- C1 counterexample: in the concrete state `c1Ui` the hot-target flag
is clear, yet pressing `nodeB`'s target port commits the edge A→B —
the press-to-commit branch of `handlePortMouseDown` performs no
hot-target check, contradicting the claim that a press on a target
node that is not currently hot commits no edge. -/
theorem pressTarget_commits_without_hot :
    c1Ui.potentialTargetNodeId = none ∧
    (handlePortMouseDown c1App c1Ui 305 300 "B" PortType.target).1.edges =
      [{ id := generateId 2, sourceId := "A", targetId := "B" }] := by
  decide

/-- C1 (amended): while a pending edge is active, pressing a different
node's target port always commits an edge from the pending source to
that node, regardless of the hot-target flag, and clears the pending
edge; it is the release path (`handlePortMouseUp`) that commits only
when the released-over node is the current hot target, and otherwise
merely discards the pending edge. -/
theorem portCommit_paths (app : AppState) (ui : UIState) (mouseX mouseY : ℚ)
    (nodeId : String) (pe : PendingEdge)
    (hpe : ui.pendingEdge = some pe) (hne : pe.sourceId ≠ nodeId) :
    handlePortMouseDown app ui mouseX mouseY nodeId PortType.target =
      (addEdge app pe.sourceId nodeId,
       { ui with pendingEdge := none, potentialTargetNodeId := none }) ∧
    (ui.potentialTargetNodeId = some nodeId →
      handlePortMouseUp app ui nodeId PortType.target =
        (addEdge app pe.sourceId nodeId,
         { ui with pendingEdge := none, potentialTargetNodeId := none })) ∧
    (ui.potentialTargetNodeId ≠ some nodeId →
      handlePortMouseUp app ui nodeId PortType.target =
        (app, { ui with pendingEdge := none, potentialTargetNodeId := none })) := by
  refine ⟨?_, ?_, ?_⟩
  · simp [handlePortMouseDown, hpe, hne]
  · intro hhot
    simp [handlePortMouseUp, hpe, hne, hhot]
  · intro hhot
    simp [handlePortMouseUp, hpe, hne, hhot]

/-- Witness for `portCommit_paths` at the concrete state `c1App`,
`c1Ui`. -/
theorem portCommit_paths_witness :
    handlePortMouseDown c1App c1Ui 305 300 "B" PortType.target =
      (addEdge c1App "A" "B",
       { c1Ui with pendingEdge := none, potentialTargetNodeId := none }) :=
  (portCommit_paths c1App c1Ui 305 300 "B" c1Pe rfl (by decide)).1

/-- C5 counterexample: with a node drag in flight and no pending edge
(state `c5Ui`), pressing Escape leaves the drag active — the
interaction state does not return to Idle, contradicting the claim
that Escape cancels whichever of drag, resize, or connect is active. -/
theorem escape_does_not_cancel_drag :
    c5Ui.draggingNode = some "A" ∧
    (handleEscapeKeyDown c1App c5Ui).2.draggingNode = some "A" ∧
    (handleEscapeKeyDown c1App c5Ui).2 = c5Ui := by
  decide

/-- C5 (amended): pressing Escape cancels only an in-flight connect
gesture — the pending edge is discarded and the hot-target flag is
cleared — and never mutates the Graph Store; an active drag or resize
gesture and the edge selection are left untouched (those gestures end
only on pointer release). -/
theorem escape_cancels_only_connect (app : AppState) (ui : UIState) :
    (handleEscapeKeyDown app ui).1 = app ∧
    (handleEscapeKeyDown app ui).2.pendingEdge = none ∧
    (handleEscapeKeyDown app ui).2.draggingNode = ui.draggingNode ∧
    (handleEscapeKeyDown app ui).2.resizingNode = ui.resizingNode ∧
    (handleEscapeKeyDown app ui).2.selectedEdgeId = ui.selectedEdgeId ∧
    (handleEscapeKeyDown app ui).2.potentialTargetNodeId =
      (if ui.pendingEdge.isSome then none else ui.potentialTargetNodeId) := by
  cases h : ui.pendingEdge <;> simp [handleEscapeKeyDown, h]

/-- The invariant survives any node-list transformation that preserves
node ids pointwise. -/
theorem edgesValid_map (nodes : List Node) (edges : List Edge) (f : Node → Node)
    (hf : ∀ n, (f n).id = n.id) (h : edgesValid nodes edges) :
    edgesValid (nodes.map f) edges := by
  intro e he
  obtain ⟨⟨ns, hns, hs⟩, ⟨nt, hnt, ht⟩⟩ := h e he
  exact ⟨⟨f ns, List.mem_map_of_mem f hns, (hf ns).trans hs⟩,
         ⟨f nt, List.mem_map_of_mem f hnt, (hf nt).trans ht⟩⟩

/-- The invariant survives appending a node. -/
theorem edgesValid_append_node (nodes : List Node) (edges : List Edge) (m : Node)
    (h : edgesValid nodes edges) : edgesValid (nodes ++ [m]) edges := by
  intro e he
  obtain ⟨⟨ns, hns, hs⟩, ⟨nt, hnt, ht⟩⟩ := h e he
  exact ⟨⟨ns, List.mem_append_left _ hns, hs⟩, ⟨nt, List.mem_append_left _ hnt, ht⟩⟩

/-- The invariant survives dropping edges. -/
theorem edgesValid_filter_edges (nodes : List Node) (edges : List Edge)
    (p : Edge → Bool) (h : edgesValid nodes edges) :
    edgesValid nodes (edges.filter p) :=
  fun e he => h e (List.mem_of_mem_filter he)

/-- C2 counterexample: on the empty store, `addEdge "a" "b"` creates an
edge although neither endpoint names an existing node — `addEdge`
checks only self-loops and duplicate pairs, never node existence, so
the claim's universal statement over string pairs fails. -/
theorem addEdge_creates_dangling_edge :
    ¬ edgesWellFormed (addEdge c2App "a" "b") := by
  decide

/-- C2 (amended): every Graph Store operation except `addEdge`
preserves the endpoint-existence invariant unconditionally, and
`addEdge a b` preserves it whenever `a` and `b` are ids of existing
nodes; `addEdge` itself performs no existence check, so the invariant
is only maintained for calls whose arguments reference existing nodes
(which the UI's call sites supply). -/
theorem graphStore_preserves_wellFormed (st : AppState) (h : edgesWellFormed st) :
    (∀ type text x y rx ry, edgesWellFormed (addNode st type text x y rx ry).1) ∧
    (∀ nodeId, edgesWellFormed (deleteNode st nodeId)) ∧
    (∀ edgeId, edgesWellFormed (deleteEdge st edgeId)) ∧
    (∀ nodeId t, edgesWellFormed (updateNodeText st nodeId t)) ∧
    (∀ nodeId x y, edgesWellFormed (updateNodePosition st nodeId x y)) ∧
    (∀ nodeId w0 h0, edgesWellFormed (updateNodeDimensions st nodeId w0 h0)) ∧
    (∀ w0 h0, edgesWellFormed (setDefaultNodeSize st w0 h0)) ∧
    (∀ a b, (∃ n ∈ st.nodes, n.id = a) → (∃ n ∈ st.nodes, n.id = b) →
      edgesWellFormed (addEdge st a b)) := by
  refine ⟨?_, ?_, ?_, ?_, ?_, ?_, ?_, ?_⟩
  · intro type text x y rx ry
    exact edgesValid_append_node st.nodes st.edges _ h
  · intro nodeId e he
    have he' : e ∈ st.edges.filter
        (fun e => e.sourceId != nodeId && e.targetId != nodeId) := he
    have hmem : e ∈ st.edges := (List.mem_filter.mp he').1
    have hprop : (e.sourceId != nodeId && e.targetId != nodeId) = true :=
      (List.mem_filter.mp he').2
    rw [Bool.and_eq_true, bne_iff_ne, bne_iff_ne] at hprop
    obtain ⟨⟨ns, hns, hs⟩, ⟨nt, hnt, ht⟩⟩ := h e hmem
    refine ⟨⟨ns, ?_, hs⟩, ⟨nt, ?_, ht⟩⟩
    · exact List.mem_filter.mpr ⟨hns, by simp [bne_iff_ne, hs, hprop.1]⟩
    · exact List.mem_filter.mpr ⟨hnt, by simp [bne_iff_ne, ht, hprop.2]⟩
  · intro edgeId
    exact edgesValid_filter_edges st.nodes st.edges _ h
  · intro nodeId t
    exact edgesValid_map st.nodes st.edges _ (fun n => by split <;> rfl) h
  · intro nodeId x y
    exact edgesValid_map st.nodes st.edges _ (fun n => by split <;> rfl) h
  · intro nodeId w0 h0
    exact edgesValid_map st.nodes st.edges _ (fun n => by split <;> rfl) h
  · intro w0 h0
    exact h
  · intro a b ha hb
    unfold addEdge
    split
    · exact h
    · intro e he
      rcases List.mem_append.mp he with hold | hnew
      · exact h e hold
      · obtain rfl : e = { id := generateId st.nextId, sourceId := a, targetId := b } := by
          simpa using hnew
        exact ⟨ha, hb⟩

/-- Witness for `graphStore_preserves_wellFormed`: the store `c4App`
satisfies the invariant, and adding the edge B→A between its two
existing nodes keeps it satisfied. -/
theorem graphStore_preserves_wellFormed_witness :
    edgesWellFormed (addEdge c4App "B" "A") :=
  (graphStore_preserves_wellFormed c4App (by decide)).2.2.2.2.2.2.2 "B" "A"
    ⟨nodeB, by decide, by decide⟩ ⟨nodeA, by decide, by decide⟩

/-- The hover loop yields no hot target exactly when every node is the
pending source or lies outside the proximity threshold. -/
theorem findHotTarget_eq_none_iff (nodes : List Node) (src : String) (mx my : ℚ) :
    findHotTarget nodes src mx my = none ↔
      ∀ n ∈ nodes, n.id = src ∨
        ¬ distSqToHoverAnchor n mx my < (PORT_SIZE * (5 / 2)) ^ 2 := by
  induction nodes with
  | nil => simp [findHotTarget]
  | cons n rest ih =>
    by_cases h1 : n.id = src
    · simp only [findHotTarget, if_pos h1, ih, List.mem_cons]
      constructor
      · rintro hrest m (rfl | hm)
        · exact Or.inl h1
        · exact hrest m hm
      · intro hall m hm
        exact hall m (Or.inr hm)
    · by_cases h2 : distSqToHoverAnchor n mx my < (PORT_SIZE * (5 / 2)) ^ 2
      · simp [findHotTarget, if_neg h1, if_pos h2, h1, h2]
      · simp only [findHotTarget, if_neg h1, if_neg h2, ih, List.mem_cons]
        constructor
        · rintro hrest m (rfl | hm)
          · exact Or.inr h2
          · exact hrest m hm
        · intro hall m hm
          exact hall m (Or.inr hm)

/-- The hover loop yields `some i` exactly when `i` is the id of the
first node in iteration order that is not the pending source and lies
within the proximity threshold. -/
theorem findHotTarget_eq_some_iff (nodes : List Node) (src : String) (mx my : ℚ)
    (i : String) :
    findHotTarget nodes src mx my = some i ↔
      ∃ pre m post, nodes = pre ++ m :: post ∧ m.id = i ∧ m.id ≠ src ∧
        distSqToHoverAnchor m mx my < (PORT_SIZE * (5 / 2)) ^ 2 ∧
        ∀ p ∈ pre, p.id = src ∨
          ¬ distSqToHoverAnchor p mx my < (PORT_SIZE * (5 / 2)) ^ 2 := by
  induction nodes with
  | nil =>
    simp only [findHotTarget]
    constructor
    · intro hc
      exact absurd hc (by simp)
    · rintro ⟨pre, m, post, hdec, -⟩
      exact absurd hdec (by simp)
  | cons n rest ih =>
    constructor
    · intro hc
      by_cases h1 : n.id = src
      · rw [findHotTarget, if_pos h1] at hc
        obtain ⟨pre, m, post, hdec, hm1, hm2, hm3, hpre⟩ := ih.mp hc
        refine ⟨n :: pre, m, post, by rw [hdec, List.cons_append], hm1, hm2, hm3, ?_⟩
        intro p hp
        rcases List.mem_cons.mp hp with rfl | hp'
        · exact Or.inl h1
        · exact hpre p hp'
      · by_cases h2 : distSqToHoverAnchor n mx my < (PORT_SIZE * (5 / 2)) ^ 2
        · rw [findHotTarget, if_neg h1, if_pos h2] at hc
          obtain rfl : n.id = i := by simpa using hc
          exact ⟨[], n, rest, rfl, rfl, h1, h2, by simp⟩
        · rw [findHotTarget, if_neg h1, if_neg h2] at hc
          obtain ⟨pre, m, post, hdec, hm1, hm2, hm3, hpre⟩ := ih.mp hc
          refine ⟨n :: pre, m, post, by rw [hdec, List.cons_append], hm1, hm2, hm3, ?_⟩
          intro p hp
          rcases List.mem_cons.mp hp with rfl | hp'
          · exact Or.inr h2
          · exact hpre p hp'
    · rintro ⟨pre, m, post, hdec, hm1, hm2, hm3, hpre⟩
      match pre, hdec with
      | [], hdec =>
        obtain ⟨rfl, rfl⟩ : n = m ∧ rest = post := by
          constructor <;> [exact (List.cons.injEq _ _ _ _ ▸ hdec).1;
                          exact (List.cons.injEq _ _ _ _ ▸ hdec).2]
        rw [findHotTarget, if_neg hm2, if_pos hm3, hm1]
      | p0 :: pre', hdec =>
        obtain ⟨rfl, hrest⟩ : n = p0 ∧ rest = pre' ++ m :: post := by
          rw [List.cons_append] at hdec
          constructor <;> [exact (List.cons.injEq _ _ _ _ ▸ hdec).1;
                          exact (List.cons.injEq _ _ _ _ ▸ hdec).2]
        have hn := hpre n (List.mem_cons_self n pre')
        have htail : findHotTarget rest src mx my = some i :=
          ih.mpr ⟨pre', m, post, hrest, hm1, hm2, hm3,
            fun p hp => hpre p (List.mem_cons_of_mem _ hp)⟩
        rcases hn with hn | hn
        · rw [findHotTarget, if_pos hn]
          exact htail
        · by_cases h1 : n.id = src
          · rw [findHotTarget, if_pos h1]
            exact htail
          · rw [findHotTarget, if_neg h1, if_neg hn]
            exact htail

/-- C6 counterexample: in the state `c6Ui`/`c6App` with cursor at
`(50, -22)`, the cursor is within 2.5 port diameters (25) of
`c6NodeB`'s top-center port at `(50, 0)` — distance 22 — so the claim
predicts `c6NodeB` becomes the hot target; but the source measures the
distance to the point `(50, PORT_SIZE/2)` half a port below the top
edge — distance 27 — and clears the hot target instead. -/
theorem hotTarget_anchor_mismatch :
    findHotTargetSpec c6App.nodes c6Pe.sourceId 50 (-22) = some "B" ∧
    (handleMouseMoveInPane c6App c6Ui 50 (-22)).potentialTargetNodeId = none := by
  constructor
  · norm_num [findHotTargetSpec, distSqToPortCenter, c6App, c6Pe, c6NodeA, c6NodeB,
      PORT_SIZE]
    exact fun h => absurd h (by decide)
  · norm_num [handleMouseMoveInPane, c6Ui, c6Pe, findHotTarget, distSqToHoverAnchor,
      c6App, c6NodeA, c6NodeB, PORT_SIZE]

/-- C6 (amended): while a pending edge is active, each pointer move
recomputes the hot target over the nodes other than the pending
source, comparing the Euclidean distance from the live cursor to the
point `(node.x + width/2, node.y + PORT_SIZE/2)` — half a port
diameter below the node's top-center, not the port circle's center —
against the threshold 2.5 × PORT_SIZE: the first node within the
threshold in list order becomes the unique hot target, the flag is
cleared when no node qualifies (so at most one node is ever hot), and
the pending edge's live cursor point is updated. -/
theorem hotTarget_detection (app : AppState) (ui : UIState) (pe : PendingEdge)
    (mouseX mouseY : ℚ) (hpe : ui.pendingEdge = some pe) :
    ((handleMouseMoveInPane app ui mouseX mouseY).potentialTargetNodeId = none ↔
      ∀ n ∈ app.nodes, n.id = pe.sourceId ∨
        ¬ distSqToHoverAnchor n mouseX mouseY < (PORT_SIZE * (5 / 2)) ^ 2) ∧
    (∀ i : String,
      (handleMouseMoveInPane app ui mouseX mouseY).potentialTargetNodeId = some i ↔
        ∃ pre m post, app.nodes = pre ++ m :: post ∧ m.id = i ∧
          m.id ≠ pe.sourceId ∧
          distSqToHoverAnchor m mouseX mouseY < (PORT_SIZE * (5 / 2)) ^ 2 ∧
          ∀ p ∈ pre, p.id = pe.sourceId ∨
            ¬ distSqToHoverAnchor p mouseX mouseY < (PORT_SIZE * (5 / 2)) ^ 2) ∧
    (handleMouseMoveInPane app ui mouseX mouseY).pendingEdge =
      some { pe with mouseX := mouseX, mouseY := mouseY } := by
  have hui : handleMouseMoveInPane app ui mouseX mouseY =
      { ui with
        pendingEdge := some { pe with mouseX := mouseX, mouseY := mouseY }
        potentialTargetNodeId := findHotTarget app.nodes pe.sourceId mouseX mouseY } := by
    rw [handleMouseMoveInPane, hpe]
  rw [hui]
  exact ⟨findHotTarget_eq_none_iff app.nodes pe.sourceId mouseX mouseY,
         fun i => findHotTarget_eq_some_iff app.nodes pe.sourceId mouseX mouseY i,
         rfl⟩

/-- Witness for `hotTarget_detection`: with the cursor at `(50, 0)`,
`c6NodeB` (source-anchor distance 5) is the hot target in the state
`c6App`, `c6Ui`. -/
theorem hotTarget_detection_witness :
    (handleMouseMoveInPane c6App c6Ui 50 0).potentialTargetNodeId = some "B" :=
  ((hotTarget_detection c6App c6Ui c6Pe 50 0 rfl).2.1 "B").mpr
    ⟨[c6NodeA], c6NodeB, [], rfl, rfl, by decide,
     by norm_num [distSqToHoverAnchor, c6NodeB, PORT_SIZE],
     by
      intro p hp
      rcases List.mem_singleton.mp hp with rfl
      right
      norm_num [distSqToHoverAnchor, c6NodeA, PORT_SIZE]⟩

/-- The clamp never goes below its lower bound. -/
theorem le_clamp (lo v hi : ℚ) : lo ≤ clamp lo v hi := le_max_left _ _

/-- The clamp never exceeds its upper bound when the bounds are ordered. -/
theorem clamp_le (lo v hi : ℚ) (h : lo ≤ hi) : clamp lo v hi ≤ hi :=
  max_le h (min_le_right _ _)

/-- Clamping a value equal to the lower bound returns the lower bound. -/
theorem clamp_of_eq_lo (lo v hi : ℚ) (hv : v = lo) (h : lo ≤ hi) : clamp lo v hi = lo := by
  rw [hv]
  unfold clamp
  rw [min_eq_left h, max_self]

/-- Clamping a value equal to the upper bound returns the upper bound. -/
theorem clamp_of_eq_hi (lo v hi : ℚ) (hv : v = hi) (h : lo ≤ hi) : clamp lo v hi = hi := by
  rw [hv]
  unfold clamp
  rw [min_self, max_eq_right h]

/-- Multiplying a delta by the absolute scaled half-extent `|a / d|`
lands exactly on `a` or `-a`. -/
theorem mul_abs_div_cases (d a : ℚ) (hd : d ≠ 0) (ha : 0 ≤ a) :
    d * |a / d| = a ∨ d * |a / d| = -a := by
  rcases lt_or_gt_of_ne hd with h | h
  · right
    rw [abs_div, abs_of_nonneg ha, abs_of_neg h]
    field_simp
    rw [div_neg, mul_div_cancel_left₀ a hd]
  · left
    rw [abs_div, abs_of_nonneg ha, abs_of_pos h]
    field_simp

/-- C8: for every node with positive width and height and every target
point, `intersectBoundary` returns a point inside the node's box —
`x ∈ [node.x, node.x + width]`, `y ∈ [node.y, node.y + height]` — with
at least one coordinate exactly on an edge of the box (exactly, since
the model computes in exact rational arithmetic). -/
theorem intersectBoundary_on_border (n : Node) (p : Point)
    (hw : 0 < n.width) (hh : 0 < n.height) :
    n.x ≤ (intersectBoundary n p).x ∧ (intersectBoundary n p).x ≤ n.x + n.width ∧
    n.y ≤ (intersectBoundary n p).y ∧ (intersectBoundary n p).y ≤ n.y + n.height ∧
    ((intersectBoundary n p).x = n.x ∨ (intersectBoundary n p).x = n.x + n.width ∨
     (intersectBoundary n p).y = n.y ∨ (intersectBoundary n p).y = n.y + n.height) := by
  have hxle : n.x ≤ n.x + n.width := by linarith
  have hyle : n.y ≤ n.y + n.height := by linarith
  by_cases hdx0 : p.x - (n.x + n.width / 2) = 0 <;>
    by_cases hdy0 : p.y - (n.y + n.height / 2) = 0
  · have hres : intersectBoundary n p = { x := n.x + n.width / 2, y := n.y + n.height } := by
      simp [intersectBoundary, hdx0, hdy0]
    rw [hres]
    exact ⟨by linarith, by linarith, hyle, le_refl _, Or.inr (Or.inr (Or.inr rfl))⟩
  · have ht : |n.height / 2 / (p.y - (n.y + n.height / 2))| ≠ 0 :=
      abs_ne_zero.mpr (div_ne_zero (by linarith) hdy0)
    have hres : intersectBoundary n p =
        { x := clamp n.x (n.x + n.width / 2) (n.x + n.width)
          y := clamp n.y
            (n.y + n.height / 2 +
              (p.y - (n.y + n.height / 2)) * |n.height / 2 / (p.y - (n.y + n.height / 2))|)
            (n.y + n.height) } := by
      simp [intersectBoundary, hdx0, hdy0, ht]
    rw [hres]
    refine ⟨le_clamp _ _ _, clamp_le _ _ _ hxle, le_clamp _ _ _, clamp_le _ _ _ hyle, ?_⟩
    rcases mul_abs_div_cases (p.y - (n.y + n.height / 2)) (n.height / 2) hdy0 (by linarith)
      with hmul | hmul
    · refine Or.inr (Or.inr (Or.inr (clamp_of_eq_hi _ _ _ ?_ hyle)))
      rw [hmul]
      ring
    · refine Or.inr (Or.inr (Or.inl (clamp_of_eq_lo _ _ _ ?_ hyle)))
      rw [hmul]
      ring
  · have ht : |n.width / 2 / (p.x - (n.x + n.width / 2))| ≠ 0 :=
      abs_ne_zero.mpr (div_ne_zero (by linarith) hdx0)
    have hres : intersectBoundary n p =
        { x := clamp n.x
            (n.x + n.width / 2 +
              (p.x - (n.x + n.width / 2)) * |n.width / 2 / (p.x - (n.x + n.width / 2))|)
            (n.x + n.width)
          y := clamp n.y (n.y + n.height / 2) (n.y + n.height) } := by
      simp [intersectBoundary, hdx0, hdy0, ht]
    rw [hres]
    refine ⟨le_clamp _ _ _, clamp_le _ _ _ hxle, le_clamp _ _ _, clamp_le _ _ _ hyle, ?_⟩
    rcases mul_abs_div_cases (p.x - (n.x + n.width / 2)) (n.width / 2) hdx0 (by linarith)
      with hmul | hmul
    · refine Or.inr (Or.inl (clamp_of_eq_hi _ _ _ ?_ hxle))
      rw [hmul]
      ring
    · refine Or.inl (clamp_of_eq_lo _ _ _ ?_ hxle)
      rw [hmul]
      ring
  · have ht1 : 0 < |n.width / 2 / (p.x - (n.x + n.width / 2))| :=
      abs_pos.mpr (div_ne_zero (by linarith) hdx0)
    have ht2 : 0 < |n.height / 2 / (p.y - (n.y + n.height / 2))| :=
      abs_pos.mpr (div_ne_zero (by linarith) hdy0)
    have ht : min |n.width / 2 / (p.x - (n.x + n.width / 2))|
        |n.height / 2 / (p.y - (n.y + n.height / 2))| ≠ 0 :=
      ne_of_gt (lt_min ht1 ht2)
    have hres : intersectBoundary n p =
        { x := clamp n.x
            (n.x + n.width / 2 +
              (p.x - (n.x + n.width / 2)) *
                min |n.width / 2 / (p.x - (n.x + n.width / 2))|
                  |n.height / 2 / (p.y - (n.y + n.height / 2))|)
            (n.x + n.width)
          y := clamp n.y
            (n.y + n.height / 2 +
              (p.y - (n.y + n.height / 2)) *
                min |n.width / 2 / (p.x - (n.x + n.width / 2))|
                  |n.height / 2 / (p.y - (n.y + n.height / 2))|)
            (n.y + n.height) } := by
      simp [intersectBoundary, hdx0, hdy0, ht]
    rw [hres]
    refine ⟨le_clamp _ _ _, clamp_le _ _ _ hxle, le_clamp _ _ _, clamp_le _ _ _ hyle, ?_⟩
    rcases min_cases |n.width / 2 / (p.x - (n.x + n.width / 2))|
        |n.height / 2 / (p.y - (n.y + n.height / 2))| with ⟨heq, -⟩ | ⟨heq, -⟩
    · rw [heq]
      rcases mul_abs_div_cases (p.x - (n.x + n.width / 2)) (n.width / 2) hdx0 (by linarith)
        with hmul | hmul
      · refine Or.inr (Or.inl (clamp_of_eq_hi _ _ _ ?_ hxle))
        rw [hmul]
        ring
      · refine Or.inl (clamp_of_eq_lo _ _ _ ?_ hxle)
        rw [hmul]
        ring
    · rw [heq]
      rcases mul_abs_div_cases (p.y - (n.y + n.height / 2)) (n.height / 2) hdy0 (by linarith)
        with hmul | hmul
      · refine Or.inr (Or.inr (Or.inr (clamp_of_eq_hi _ _ _ ?_ hyle)))
        rw [hmul]
        ring
      · refine Or.inr (Or.inr (Or.inl (clamp_of_eq_lo _ _ _ ?_ hyle)))
        rw [hmul]
        ring

/-- Witness for `intersectBoundary_on_border` at `nodeB` (positive
200×70 box) aimed at the origin. -/
theorem intersectBoundary_on_border_witness :
    nodeB.x ≤ (intersectBoundary nodeB { x := 0, y := 0 }).x ∧
    (intersectBoundary nodeB { x := 0, y := 0 }).x ≤ nodeB.x + nodeB.width ∧
    nodeB.y ≤ (intersectBoundary nodeB { x := 0, y := 0 }).y ∧
    (intersectBoundary nodeB { x := 0, y := 0 }).y ≤ nodeB.y + nodeB.height ∧
    ((intersectBoundary nodeB { x := 0, y := 0 }).x = nodeB.x ∨
     (intersectBoundary nodeB { x := 0, y := 0 }).x = nodeB.x + nodeB.width ∨
     (intersectBoundary nodeB { x := 0, y := 0 }).y = nodeB.y ∨
     (intersectBoundary nodeB { x := 0, y := 0 }).y = nodeB.y + nodeB.height) :=
  intersectBoundary_on_border nodeB { x := 0, y := 0 }
    (by norm_num [nodeB]) (by norm_num [nodeB])

end ARA
